import Mathlib

/-!
Shallow embedding of the `c-shell` command interpreter (sources:
`src/unnamed/part_001`, the most developed revision, with `src/c-shell.c`
and `src/unnamed/part_000` as earlier near-duplicates).

Modelling conventions:
* C strings and the NULL-terminated `char **` argument vector become
  `String` and `List String` (the terminating NULL pointer is the end of
  the list).
* File-descriptor system calls performed by the redirector and executor
  are recorded as an ordered event trace (`Ev`).
* Reads of indeterminate (uninitialized) C objects are made explicit
  parameters: `lsh_echo` takes the initial value of its uninitialized
  `check` variable.
* Calls that dereference NULL (`strcmp(NULL, ...)`, never-returning waits)
  make the surrounding function return `Option.none`.
* OS outcomes that the program merely observes (allocation success,
  `open` success, `fork` success, the stream of `waitpid` statuses,
  `getcwd`) are explicit parameters, collected in `Env` for the executor.
-/

namespace CShell

/-! ## Tokenizer: `lsh_split_line` (part_001 lines 74-102)

`#define LSH_TOK_DELIM " \t\r\n\a"`; the line is cut by `strtok`, which
skips runs of delimiters and returns maximal delimiter-free chunks. -/

/-- The delimiter set `" \t\r\n\a"` (space, tab, carriage return, newline, bell). -/
def LSH_TOK_DELIM : List Char := [' ', '\t', '\r', '\n', '\x07']

def isDelim (c : Char) : Bool := LSH_TOK_DELIM.contains c

/-- The `strtok` loop of `lsh_split_line`: `acc` holds the (reversed)
characters of the token currently being scanned. -/
def splitAux : List Char → List Char → List (List Char)
  | [], acc => if acc = [] then [] else [acc.reverse]
  | c :: cs, acc =>
    if isDelim c then
      if acc = [] then splitAux cs [] else acc.reverse :: splitAux cs []
    else splitAux cs (c :: acc)

/-- `lsh_split_line`: the sequence of tokens `strtok` yields for `line`. -/
def lsh_split_line (line : String) : List String :=
  (splitAux line.data []).map (fun cs => String.mk cs)

/-! ## `lsh_echo` (part_001 lines 216-245)

`check` is only assigned when `args[1][0]` is a single or double quote;
otherwise the C code reads it uninitialized, so the model takes the
indeterminate initial value `checkInit` as a parameter. -/

/-- The single-quote character `0x27`. -/
def squoteChar : Char := Char.ofNat 39

/-- The double-quote character `0x22`. -/
def dquoteChar : Char := Char.ofNat 34

/-- `s[0]` of a C string: the NUL terminator when the string is empty. -/
def firstChar (s : String) : Char := s.data.headD (Char.ofNat 0)

/-- `s[strlen(s) - 1]` of a C string; for the empty string this C read is
out of bounds, but tokenizer output is never empty so the default is
unreachable in the program. -/
def lastChar (s : String) : Char := s.data.getLastD (Char.ofNat 0)

/-- `printf("%.*s", p, s)`: `strlen(args[i]) - 2` is computed without a
cast and received by `printf` as an `int`, so for one-character tokens the
precision is negative, which C treats as if the precision were omitted
(the whole string is printed). -/
def printfPrec (p : Int) (s : String) : String :=
  if p < 0 then s else s.take p.toNat

/-- The `while(args[i] != NULL)` body of `lsh_echo`; `isFirst` tracks
`i == 1` (where `args[i]` and `args[1]` coincide). -/
def echoAux (check : Char) (isFirst : Bool) : List String → String
  | [] => ""
  | s :: rest =>
    (if firstChar s = check ∧ lastChar s = check then
       printfPrec ((s.length : Int) - 2) (s.drop 1)
     else if isFirst = true ∧ firstChar s = check then
       s.drop 1 ++ " "
     else if rest = [] ∧ lastChar s = check then
       printfPrec ((s.length : Int) - 1) s
     else s ++ " ")
    ++ echoAux check false rest

/-- `lsh_echo`: returns the bytes written to standard output and the int
status. `checkInit` is the indeterminate initial value of the local
variable `check`. -/
def lsh_echo (args : List String) (checkInit : Char) : String × Int :=
  match args.drop 1 with
  | [] => ("\n", 1)
  | a1 :: rest =>
    let check :=
      if firstChar a1 = squoteChar then squoteChar
      else if firstChar a1 = dquoteChar then dquoteChar
      else checkInit
    (echoAux check true (a1 :: rest) ++ "\n", 1)

/-! ## `lsh_pwd` (part_001 lines 247-259) and the fatal allocation paths
of `lsh_read_line` (lines 36-67) and `lsh_split_line` (lines 76-102). -/

/-- Result of a builtin from the process's point of view: either the
function returned an int status having written `out` to standard output,
or the whole process terminated. -/
inductive PwdResult
  | returned (status : Int) (out : String)
  | terminated
deriving DecidableEq

/-- `lsh_pwd`: `mallocOk` is whether `malloc(1024)` succeeds, `cwd` is
what `getcwd` reports (`none` when it fails). On allocation failure the
code runs `perror("malloc"); return 1;` — it does not terminate. -/
def lsh_pwd (mallocOk : Bool) (cwd : Option String) : PwdResult :=
  if mallocOk = false then .returned 1 ""
  else
    match cwd with
    | none => .returned 1 ""
    | some d => .returned 1 (d ++ "\n")

/-- Result of a computation that may instead terminate the whole process
(the `fprintf(stderr, "lsh: allocation error\n"); exit(EXIT_FAILURE);`
paths). -/
inductive AllocResult (α : Type)
  | terminated
  | ok (val : α)
deriving DecidableEq

/-- The allocation behaviour of `lsh_read_line`: whenever `malloc` or
`realloc` fails the process exits; otherwise the read line is produced. -/
def lsh_read_line (mallocOk : Bool) (input : String) : AllocResult String :=
  if mallocOk then .ok input else .terminated

/-- The allocation behaviour of `lsh_split_line`: whenever `malloc` or
`realloc` fails the process exits; otherwise the token vector is
produced. -/
def lsh_split_line_checked (mallocOk : Bool) (line : String) :
    AllocResult (List String) :=
  if mallocOk then .ok (lsh_split_line line) else .terminated

/-! ## Launcher: `lsh_launch` (part_001 lines 104-129)

The parent-process view. The child either replaces itself by `execvp`
(its completion is then one of the `waitpid` statuses) or, on `execvp`
failure, does `perror` and `exit(EXIT_FAILURE)` — which the parent also
observes as an `exited` status. `statuses` is the sequence of statuses
successive `waitpid(pid, &status, WUNTRACED)` calls store. -/

inductive WStatus
  | exited (code : Nat)
  | signaled (sig : Nat)
  | stopped (sig : Nat)
deriving DecidableEq

def WIFEXITED : WStatus → Bool
  | .exited _ => true
  | _ => false

def WIFSIGNALED : WStatus → Bool
  | .signaled _ => true
  | _ => false

/-- The `do { wpid = waitpid(...); } while(!WIFEXITED && !WIFSIGNALED)`
loop: the first status that is exited or signaled; `none` when the
stream never produces one (the loop never ends). -/
def waitLoop : List WStatus → Option WStatus
  | [] => none
  | s :: rest =>
    if WIFEXITED s || WIFSIGNALED s then some s else waitLoop rest

/-- `lsh_launch`, parent side: `forkOk = false` is `pid < 0`
(`perror("lsh"); return 1`), otherwise the parent waits; `none` means
the wait loop never terminates. -/
def lsh_launch (forkOk : Bool) (statuses : List WStatus) : Option Int :=
  if forkOk then
    match waitLoop statuses with
    | some _ => some 1
    | none => none
  else some 1

/-! ## Builtin registry (part_001 lines 141-214): int statuses.

Each builtin's int return value, with the source's branch structure.
`lsh_echo` (status component of the pair above) and `lsh_pwd` (status of
`PwdResult.returned`) are modelled in full above. -/

def builtin_str : List String := ["cd", "help", "exit", "type", "echo", "pwd"]

def lsh_cd (args : List String) : Int :=
  match args.get? 1 with
  | none => 1
  | some _ => 1

def lsh_help (_args : List String) : Int := 1

def lsh_exit (_args : List String) : Int := 0

def lsh_type (args : List String) : Int :=
  match args.get? 1 with
  | none => 1
  | some _ => 1

/-! ## Redirector: `lsh_redirect` (part_001 lines 269-306) -/

/-- `O_WRONLY` on Linux. -/
def O_WRONLY : Nat := 1
/-- `O_CREAT` (octal 0100) on Linux. -/
def O_CREAT : Nat := 64
/-- `O_TRUNC` (octal 01000) on Linux. -/
def O_TRUNC : Nat := 512
/-- `O_APPEND` (octal 02000) on Linux. -/
def O_APPEND : Nat := 1024

/-- Ordered trace of the observable actions of `lsh_redirect` and
`lsh_execute`. -/
inductive Ev
  /-- `perror` / `fprintf(stderr, ...)`. -/
  | errorMsg
  /-- `fd = open(fname, flags, mode)` succeeded. -/
  | openFile (fname : String) (flags : Nat) (mode : Nat)
  /-- `*saved_stdout = dup(STDOUT_FILENO)`. -/
  | dupStdout
  /-- `dup2(fd, STDOUT_FILENO); close(fd)`. -/
  | redirectStdout
  /-- the builtin handler for `name` is invoked on `args`. -/
  | runBuiltin (name : String) (args : List String)
  /-- `lsh_launch` is invoked on `args`. -/
  | launch (args : List String)
  /-- `dup2(saved_stdout, STDOUT_FILENO); close(saved_stdout)` with a
  valid saved descriptor. -/
  | restoreStdout
  /-- the same two calls with `saved_stdout == -1`; both fail. -/
  | restoreInvalid
deriving DecidableEq

/-- The scan `while(args[i] != NULL) ... strcmp(args[i], ">") ...`:
index of the first `>` (append = false) or `>>` (append = true). -/
def findRedirOp : List String → Option (Nat × Bool)
  | [] => none
  | a :: rest =>
    if a = ">" then some (0, false)
    else if a = ">>" then some (0, true)
    else
      match findRedirOp rest with
      | some (i, b) => some (i + 1, b)
      | none => none

/-- Return value of `lsh_redirect` together with the argument vector as
the caller sees it afterwards (the array is mutated in place: writing
`args[i] = 0` truncates it at the operator). -/
inductive RedirResult
  /-- return `0`: no operator found, vector untouched. -/
  | noRedirect
  /-- return `1`: redirection in effect, vector truncated. -/
  | applied (newArgs : List String)
  /-- return `-1`: `open` failed, vector already truncated. -/
  | failed (newArgs : List String)
deriving DecidableEq

/-- `lsh_redirect`. Note the order in the source: `args[i] = 0` is
executed before the filename is read, so the vector is truncated even
when the filename is absent; `open(NULL, ...)` fails (EFAULT), and
`openOk` is whether `open` succeeds on a present filename. -/
def lsh_redirect (args : List String) (openOk : Bool) :
    RedirResult × List Ev :=
  match findRedirOp args with
  | none => (.noRedirect, [])
  | some (i, append) =>
    match args.get? (i + 1) with
    | none => (.failed (args.take i), [.errorMsg])
    | some filename =>
      if openOk then
        (.applied (args.take i),
         [.openFile filename
            (O_WRONLY ||| O_CREAT ||| (if append then O_APPEND else O_TRUNC))
            (0o644),
          .dupStdout, .redirectStdout])
      else (.failed (args.take i), [.errorMsg])

/-! ## Executor: `lsh_execute` (part_001 lines 308-336) -/

/-- The OS outcomes `lsh_execute` and the functions it calls observe. -/
structure Env where
  /-- does `open(filename, ...)` in `lsh_redirect` succeed? -/
  openOk : Bool
  /-- does `malloc` in `lsh_pwd` succeed? -/
  mallocOk : Bool
  /-- what `getcwd` in `lsh_pwd` reports. -/
  cwd : Option String
  /-- the indeterminate initial value of `check` in `lsh_echo`. -/
  checkInit : Char
  /-- does `fork` in `lsh_launch` succeed? -/
  forkOk : Bool
  /-- the statuses successive `waitpid` calls in `lsh_launch` store. -/
  waitStatuses : List WStatus

/-- The int status of `lsh_pwd` (every path of `lsh_pwd` returns, so the
`terminated` arm is unreachable). -/
def pwdStatus (mallocOk : Bool) (cwd : Option String) : Int :=
  match lsh_pwd mallocOk cwd with
  | .returned s _ => s
  | .terminated => 0

/-- The `builtin_func` dispatch table (part_001 lines 158-165): the int
status returned by the handler paired with each registered name. -/
def dispatchBuiltin (env : Env) (name : String) (args : List String) : Int :=
  if name = "cd" then lsh_cd args
  else if name = "help" then lsh_help args
  else if name = "exit" then lsh_exit args
  else if name = "type" then lsh_type args
  else if name = "echo" then (lsh_echo args env.checkInit).2
  else pwdStatus env.mallocOk env.cwd

/-- The argument vector after `lsh_redirect` (it is mutated in place). -/
def curArgsOf (args : List String) : RedirResult → List String
  | .noRedirect => args
  | .applied a => a
  | .failed a => a

/-- The restore code `if(redirection_applied) { dup2(saved_stdout,
STDOUT_FILENO); close(saved_stdout); }`: `-1` (the error return of
`lsh_redirect`) is truthy, so the error path also reaches `dup2`, with
`saved_stdout` still `-1`. -/
def postEvents : RedirResult → List Ev
  | .noRedirect => []
  | .applied _ => [Ev.restoreStdout]
  | .failed _ => [Ev.restoreInvalid]

/-- `lsh_execute`: `none` models a run that does not return to the
caller — `strcmp(args[0], ...)` dereferencing NULL after the vector was
truncated at position 0, or a wait loop that never ends. -/
def lsh_execute (env : Env) (args : List String) : Option (Int × List Ev) :=
  if args = [] then some (1, [])
  else
    match lsh_redirect args env.openOk with
    | (rres, ev) =>
      match (curArgsOf args rres).head? with
      | none => none
      | some cmd =>
        if cmd ∈ builtin_str then
          some (dispatchBuiltin env cmd (curArgsOf args rres),
                ev ++ [Ev.runBuiltin cmd (curArgsOf args rres)]
                   ++ postEvents rres)
        else
          match lsh_launch env.forkOk env.waitStatuses with
          | none => none
          | some r =>
            some (r, ev ++ [Ev.launch (curArgsOf args rres)]
                        ++ postEvents rres)

/-- A concrete environment in which every OS call succeeds. -/
def env0 : Env := ⟨true, true, some "/home", 'x', true, [WStatus.exited 0]⟩

/-! ## Helper lemmas -/

theorem splitAux_sound (cs : List Char) :
    ∀ acc : List Char, (∀ c ∈ acc, isDelim c = false) →
      ∀ t ∈ splitAux cs acc, t ≠ [] ∧ ∀ c ∈ t, isDelim c = false := by
  induction cs with
  | nil =>
    intro acc hacc t ht
    by_cases h : acc = []
    · simp [splitAux, h] at ht
    · simp only [splitAux, if_neg h, List.mem_singleton] at ht
      subst ht
      refine ⟨by simpa using h, fun c hc => hacc c ?_⟩
      exact List.mem_reverse.mp hc
  | cons c cs ih =>
    intro acc hacc t ht
    by_cases hd : isDelim c = true
    · by_cases h : acc = []
      · simp only [splitAux, if_pos hd, if_pos h] at ht
        exact ih [] (by simp) t ht
      · simp only [splitAux, if_pos hd, if_neg h, List.mem_cons] at ht
        rcases ht with h1 | h1
        · subst h1
          refine ⟨by simpa using h, fun d hdm => hacc d ?_⟩
          exact List.mem_reverse.mp hdm
        · exact ih [] (by simp) t h1
    · simp only [splitAux, if_neg hd] at ht
      refine ih (c :: acc) ?_ t ht
      intro d hdm
      rcases List.mem_cons.mp hdm with h1 | h1
      · subst h1; simpa using hd
      · exact hacc d h1

theorem splitAux_all_delim (cs : List Char)
    (h : ∀ c ∈ cs, isDelim c = true) : splitAux cs [] = [] := by
  induction cs with
  | nil => simp [splitAux]
  | cons c cs ih =>
    have hc : isDelim c = true := h c (by simp)
    simp only [splitAux, if_pos hc, if_pos rfl]
    exact ih fun d hd => h d (List.mem_cons_of_mem _ hd)

theorem tokens_sound (line : String) :
    ∀ t ∈ lsh_split_line line, t ≠ "" ∧ ∀ c ∈ t.data, isDelim c = false := by
  intro t ht
  simp only [lsh_split_line, List.mem_map] at ht
  obtain ⟨cs, hcs, rfl⟩ := ht
  have h := splitAux_sound line.data [] (by simp) cs hcs
  refine ⟨fun hcon => h.1 ?_, h.2⟩
  exact congrArg String.data hcon

theorem echoAux_plain (k : Char) :
    ∀ (l : List String) (b : Bool),
      (∀ t ∈ l, firstChar t ≠ k ∧ lastChar t ≠ k) →
      echoAux k b l = l.foldr (fun s acc => s ++ " " ++ acc) "" := by
  intro l
  induction l with
  | nil => intro b _; rfl
  | cons s rest ih =>
    intro b h
    have hs := h s (by simp)
    have hrest : ∀ t ∈ rest, firstChar t ≠ k ∧ lastChar t ≠ k :=
      fun t ht => h t (List.mem_cons_of_mem _ ht)
    simp only [echoAux, List.foldr_cons]
    rw [if_neg (fun hc => hs.1 hc.1), if_neg (fun hc => hs.1 hc.2),
        if_neg (fun hc => hs.2 hc.2), ih false hrest]

theorem findRedirOp_cons_pos (a : String) (rest : List String)
    (i : Nat) (b : Bool) (ha1 : a ≠ ">") (ha2 : a ≠ ">>")
    (h : findRedirOp (a :: rest) = some (i, b)) :
    ∃ j, i = j + 1 ∧ findRedirOp rest = some (j, b) := by
  simp only [findRedirOp, if_neg ha1, if_neg ha2] at h
  cases hr : findRedirOp rest with
  | none => rw [hr] at h; exact absurd h (by simp)
  | some p =>
    obtain ⟨j, b0⟩ := p
    rw [hr] at h
    obtain ⟨hji, hb⟩ : j + 1 = i ∧ b0 = b := by simpa using h
    exact ⟨j, hji.symm, by rw [hb]⟩

theorem lsh_redirect_applied (args : List String) (i : Nat)
    (append : Bool) (fname : String)
    (h1 : findRedirOp args = some (i, append))
    (h2 : args.get? (i + 1) = some fname) :
    lsh_redirect args true =
      (.applied (args.take i),
       [.openFile fname
          (O_WRONLY ||| O_CREAT ||| (if append then O_APPEND else O_TRUNC))
          (0o644),
        .dupStdout, .redirectStdout]) := by
  rw [List.get?_eq_getElem?] at h2
  simp [lsh_redirect, h1, h2]

theorem dispatchBuiltin_status (env : Env) (name : String)
    (args : List String) :
    dispatchBuiltin env name args = if name = "exit" then 0 else 1 := by
  by_cases he : name = "exit"
  · subst he; rfl
  · rw [if_neg he]
    simp only [dispatchBuiltin, if_neg he]
    by_cases h1 : name = "cd"
    · simp only [if_pos h1, lsh_cd]
      cases args.get? 1 <;> rfl
    rw [if_neg h1]
    by_cases h2 : name = "help"
    · simp [if_pos h2, lsh_help]
    rw [if_neg h2]
    by_cases h3 : name = "type"
    · simp only [if_pos h3, lsh_type]
      cases args.get? 1 <;> rfl
    rw [if_neg h3]
    by_cases h4 : name = "echo"
    · simp only [if_pos h4, lsh_echo]
      cases args.drop 1 <;> rfl
    rw [if_neg h4]
    simp only [pwdStatus, lsh_pwd]
    by_cases h5 : env.mallocOk = false
    · simp [h5]
    · simp only [if_neg h5]
      cases env.cwd <;> rfl

theorem lsh_launch_result (forkOk : Bool) (statuses : List WStatus)
    (r : Int) (h : lsh_launch forkOk statuses = some r) : r = 1 := by
  cases forkOk with
  | false => simpa [lsh_launch] using h.symm
  | true =>
    simp only [lsh_launch, if_pos rfl] at h
    cases hw : waitLoop statuses with
    | none => rw [hw] at h; exact absurd h (by simp)
    | some s => rw [hw] at h; simpa using h.symm

theorem curArgs_head (a : String) (as : List String) (openOk : Bool)
    (rres : RedirResult) (ev : List Ev)
    (ha1 : a ≠ ">") (ha2 : a ≠ ">>")
    (hred : lsh_redirect (a :: as) openOk = (rres, ev)) :
    (curArgsOf (a :: as) rres).head? = some a := by
  cases hop : findRedirOp (a :: as) with
  | none =>
    simp only [lsh_redirect, hop] at hred
    injection hred with hr he
    subst hr
    rfl
  | some p =>
    obtain ⟨i, b⟩ := p
    obtain ⟨j, rfl, hj⟩ := findRedirOp_cons_pos a as i b ha1 ha2 hop
    simp only [lsh_redirect, hop] at hred
    cases hg : (a :: as).get? (j + 1 + 1) with
    | none =>
      rw [hg] at hred
      injection hred with hr he
      subst hr
      rfl
    | some fn =>
      rw [hg] at hred
      cases openOk with
      | true =>
        simp only [if_pos rfl] at hred
        injection hred with hr he
        subst hr
        rfl
      | false =>
        simp only [Bool.false_eq_true, if_false] at hred
        injection hred with hr he
        subst hr
        rfl

/-! ## Claims -/

/-- C1: the spec requires that a redirection operator with no following
filename makes the command fail with a user-visible error and no side
effect — the command must not be invoked and the Argument Vector must
not be modified. The code instead truncates the vector at the operator
(`args[i] = 0` happens before the filename is checked), ignores
`lsh_redirect`'s `-1` error return (`if(redirection_applied)` is true
for `-1`), invokes the builtin on the truncated vector, and then calls
`dup2`/`close` on the invalid saved descriptor `-1`. Evaluated here at
argument vector `["echo", "a", ">"]`. -/
theorem c1_malformed_redirection_still_runs_builtin :
    lsh_execute env0 ["echo", "a", ">"] =
      some (1, [Ev.errorMsg, Ev.runBuiltin "echo" ["echo", "a"],
                Ev.restoreInvalid]) := by decide

/-- C3 counterexample: with the indeterminate byte `check` equal to
`'\x00'`, `echo a b c` writes `"a b c \n"` — a space after the last
argument — not the claimed `"a b c\n"` (the loop prints `"%s "` for
every plain argument, the last one included). -/
theorem c3_counterexample_trailing_space :
    (lsh_echo ["echo", "a", "b", "c"] (Char.ofNat 0)).1 = "a b c \n"
    ∧ ("a b c \n" : String) ≠ "a b c\n" := by decide

/-- C3 amended: for a non-empty argument list of non-empty words none of
which begins or ends with the indeterminate `check` byte, and whose
first word does not begin with a quote character, `lsh_echo` writes each
argument followed by one space and then a newline — so `echo a b c`
writes `"a b c \n"` (with a trailing space), not `"a b c\n"`. -/
theorem c3_echo_space_joined (k : Char) (a : String) (rest : List String)
    (hq1 : firstChar a ≠ squoteChar) (hq2 : firstChar a ≠ dquoteChar)
    (h : ∀ t ∈ a :: rest, t ≠ "" ∧ firstChar t ≠ k ∧ lastChar t ≠ k) :
    lsh_echo ("echo" :: a :: rest) k =
      ((a :: rest).foldr (fun s acc => s ++ " " ++ acc) "" ++ "\n", 1) := by
  show (echoAux (if firstChar a = squoteChar then squoteChar
      else if firstChar a = dquoteChar then dquoteChar else k) true
      (a :: rest) ++ "\n", 1) = _
  rw [if_neg hq1, if_neg hq2,
      echoAux_plain k (a :: rest) true (fun t ht => (h t ht).2)]

/-- C3 witness: the amended statement instantiated at `echo a b c` with
indeterminate byte `'x'`. -/
theorem c3_echo_space_joined_witness :
    lsh_echo ["echo", "a", "b", "c"] 'x' = ("a b c \n", 1) :=
  c3_echo_space_joined 'x' "a" ["b", "c"] (by decide) (by decide)
    (by decide)

/-- C5: `lsh_launch` returns `1` ("continue") on every path that
returns — fork failure, and any terminating wait (child exit, child
killed by signal, exec failure observed by the parent as an exit with
`EXIT_FAILURE`) — never surfacing the child's status; and the wait loop
re-waits whenever the reported status is neither exited nor signaled. -/
theorem c5_launch_always_continue :
    (∀ statuses : List WStatus, lsh_launch false statuses = some 1)
    ∧ (∀ (statuses : List WStatus) (s : WStatus),
        waitLoop statuses = some s → lsh_launch true statuses = some 1)
    ∧ (∀ (s : WStatus) (rest : List WStatus),
        WIFEXITED s = false → WIFSIGNALED s = false →
        waitLoop (s :: rest) = waitLoop rest) := by
  refine ⟨fun _ => rfl, ?_, ?_⟩
  · intro sts s h
    simp [lsh_launch, h]
  · intro s rest h1 h2
    simp [waitLoop, h1, h2]

/-- C5 witness: fork failure returns 1; a stopped notification followed
by a normal exit returns 1, the stopped status having been re-waited. -/
theorem c5_launch_always_continue_witness :
    lsh_launch false [] = some 1
    ∧ lsh_launch true [WStatus.stopped 19, WStatus.exited 0] = some 1
    ∧ waitLoop [WStatus.stopped 19, WStatus.exited 0] =
        waitLoop [WStatus.exited 0] :=
  ⟨c5_launch_always_continue.1 [],
   c5_launch_always_continue.2.1 [WStatus.stopped 19, WStatus.exited 0]
     (WStatus.exited 0) (by decide),
   c5_launch_always_continue.2.2 (WStatus.stopped 19) [WStatus.exited 0]
     (by decide) (by decide)⟩

/-- C6 counterexample: allocation failure in `lsh_pwd` is not fatal —
the code does `perror("malloc"); return 1;`, so the builtin returns
"continue" and the process keeps running, contradicting "every
allocation failure is fatal". -/
theorem c6_counterexample_pwd_alloc_continues :
    lsh_pwd false (some "/home") = .returned 1 ""
    ∧ PwdResult.returned 1 "" ≠ PwdResult.terminated := by decide

/-- C6 amended: allocation failure in the line reader and the tokenizer
is fatal (the process terminates after reporting the error), but
allocation failure in the `pwd` builtin is reported and `pwd` returns
"continue" (status 1) with no output — the process does not terminate. -/
theorem c6_alloc_failure_fatal_except_pwd :
    (∀ input : String, lsh_read_line false input = .terminated)
    ∧ (∀ line : String, lsh_split_line_checked false line = .terminated)
    ∧ (∀ cwd : Option String, lsh_pwd false cwd = .returned 1 "") :=
  ⟨fun _ => rfl, fun _ => rfl, fun _ => rfl⟩

/-- C7: the tokenizer splits on runs of space, tab, carriage return,
newline and bell; consecutive delimiters yield no empty tokens; an empty
or all-delimiter line yields the empty vector; and tokenizing
`"cd   /tmp"` yields exactly `["cd", "/tmp"]`. -/
theorem c7_tokenizer_collapses_delims :
    (∀ line : String, "" ∉ lsh_split_line line)
    ∧ (∀ line : String, (∀ c ∈ line.data, isDelim c = true) →
        lsh_split_line line = [])
    ∧ lsh_split_line "cd   /tmp" = ["cd", "/tmp"] := by
  refine ⟨?_, ?_, by decide⟩
  · intro line h
    exact (tokens_sound line "" h).1 rfl
  · intro line h
    simp [lsh_split_line, splitAux_all_delim line.data h]

/-- C7 witness: no empty token in the tokens of `"echo a"`, and a line
of delimiters only (space, tab, bell) tokenizes to the empty vector. -/
theorem c7_tokenizer_collapses_delims_witness :
    ("" ∉ lsh_split_line "echo a")
    ∧ lsh_split_line " \t \x07 " = [] :=
  ⟨c7_tokenizer_collapses_delims.1 "echo a",
   c7_tokenizer_collapses_delims.2.1 " \t \x07 " (by decide)⟩

/-- C8: every token the tokenizer produces is non-empty and contains no
delimiter character, for every input line. -/
theorem c8_tokens_nonempty_no_delims (line t : String)
    (h : t ∈ lsh_split_line line) :
    t ≠ "" ∧ ∀ c ∈ t.data, isDelim c = false :=
  tokens_sound line t h

/-- C8 witness: instantiated at the token `"cd"` of line `"cd   /tmp"`. -/
theorem c8_tokens_nonempty_no_delims_witness :
    ("cd" ∈ lsh_split_line "cd   /tmp")
    ∧ ("cd" ≠ "" ∧ ∀ c ∈ "cd".data, isDelim c = false) :=
  ⟨by decide,
   c8_tokens_nonempty_no_delims "cd   /tmp" "cd" (by decide)⟩

/-- C9: when a redirection operator at position `i` is followed by a
filename and `open` succeeds, the redirector opens the file with flags
`O_WRONLY | O_CREAT | O_APPEND` for `>>` (or `O_TRUNC` for `>`) and mode
`0644`, duplicates the current standard output as the saved handle, then
replaces standard output with the opened file, and truncates the vector
at the operator so that neither the operator (position `i`) nor the
filename (position `i + 1`) remains. -/
theorem c9_redirect_success_path (args : List String) (i : Nat)
    (append : Bool) (fname : String)
    (h1 : findRedirOp args = some (i, append))
    (h2 : args.get? (i + 1) = some fname) :
    lsh_redirect args true =
      (.applied (args.take i),
       [.openFile fname
          (O_WRONLY ||| O_CREAT ||| (if append then O_APPEND else O_TRUNC))
          (0o644),
        .dupStdout, .redirectStdout])
    ∧ (args.take i).get? i = none
    ∧ (args.take i).get? (i + 1) = none := by
  have hlen : (args.take i).length ≤ i := by
    rw [List.length_take]
    exact Nat.min_le_left _ _
  exact ⟨lsh_redirect_applied args i append fname h1 h2,
    List.get?_eq_none.mpr hlen,
    List.get?_eq_none.mpr (le_trans hlen (Nat.le_succ i))⟩

/-- C9 witness: instantiated at `["ls", ">", "out.txt"]`; the computed
flag word is `577 = O_WRONLY | O_CREAT | O_TRUNC` and the mode is
`420 = 0644`. -/
theorem c9_redirect_success_path_witness :
    lsh_redirect ["ls", ">", "out.txt"] true =
      (.applied ["ls"],
       [.openFile "out.txt" 577 420, .dupStdout, .redirectStdout])
    ∧ (["ls"] : List String).get? 1 = none
    ∧ (["ls"] : List String).get? 2 = none :=
  c9_redirect_success_path ["ls", ">", "out.txt"] 1 false "out.txt"
    (by decide) (by decide)

/-- C2 counterexample: on the vector `[">", "f"]` redirection is
successfully applied (the file is opened and standard output replaced,
`lsh_redirect` returns 1), but `lsh_redirect` has set `args[0]` to NULL,
so the builtin scan calls `strcmp(NULL, "cd")` and the process crashes:
`lsh_execute` never restores the saved descriptor and never returns. -/
theorem c2_counterexample_applied_without_restore :
    (lsh_redirect [">", "f"] true).1 = .applied []
    ∧ lsh_execute env0 [">", "f"] = none := by decide

/-- C2 amended: for every command on which redirection was successfully
applied and whose first token is not the redirection operator itself,
whenever `lsh_execute` returns, its event trace ends with exactly one
restoration of the saved standard-output descriptor, placed immediately
after the builtin handler or the launcher and immediately before the
return — on both the builtin and the external path. -/
theorem c2_restore_exactly_once (env : Env) (args : List String)
    (i : Nat) (append : Bool) (fname : String) (r : Int) (evs : List Ev)
    (h1 : args.head? ≠ some ">") (h2 : args.head? ≠ some ">>")
    (h3 : findRedirOp args = some (i, append))
    (h4 : args.get? (i + 1) = some fname)
    (h5 : env.openOk = true)
    (h6 : lsh_execute env args = some (r, evs)) :
    ∃ pre handler, evs = pre ++ [handler, Ev.restoreStdout]
      ∧ Ev.restoreStdout ∉ pre ∧ handler ≠ Ev.restoreStdout
      ∧ ((∃ n bargs, handler = Ev.runBuiltin n bargs)
         ∨ (∃ largs, handler = Ev.launch largs)) := by
  cases args with
  | nil => exact absurd h3 (by simp [findRedirOp])
  | cons a as =>
    have ha1 : a ≠ ">" := fun hc => h1 (by rw [hc]; rfl)
    have ha2 : a ≠ ">>" := fun hc => h2 (by rw [hc]; rfl)
    obtain ⟨j, rfl, hj⟩ := findRedirOp_cons_pos a as i append ha1 ha2 h3
    have hred : lsh_redirect (a :: as) env.openOk =
        (.applied ((a :: as).take (j + 1)),
         [.openFile fname
            (O_WRONLY ||| O_CREAT |||
              (if append then O_APPEND else O_TRUNC)) (0o644),
          .dupStdout, .redirectStdout]) := by
      rw [h5]
      exact lsh_redirect_applied (a :: as) (j + 1) append fname h3 h4
    have hhead : (curArgsOf (a :: as)
        (.applied ((a :: as).take (j + 1)))).head? = some a := rfl
    simp only [lsh_execute, if_neg (List.cons_ne_nil a as), hred,
      hhead] at h6
    by_cases hb : a ∈ builtin_str
    · rw [if_pos hb] at h6
      obtain ⟨-, hevs⟩ : _ ∧ _ = evs := by
        have := (Option.some.injEq _ _).mp h6
        exact ⟨congrArg Prod.fst this, congrArg Prod.snd this⟩
      refine ⟨[.openFile fname
          (O_WRONLY ||| O_CREAT |||
            (if append then O_APPEND else O_TRUNC)) (0o644),
          .dupStdout, .redirectStdout],
        Ev.runBuiltin a (curArgsOf (a :: as)
          (.applied ((a :: as).take (j + 1)))), ?_, ?_, ?_, ?_⟩
      · rw [← hevs]; simp [postEvents]
      · simp
      · simp
      · exact Or.inl ⟨_, _, rfl⟩
    · rw [if_neg hb] at h6
      cases hl : lsh_launch env.forkOk env.waitStatuses with
      | none => rw [hl] at h6; exact absurd h6 (by simp)
      | some r0 =>
        rw [hl] at h6
        obtain ⟨-, hevs⟩ : _ ∧ _ = evs := by
          have := (Option.some.injEq _ _).mp h6
          exact ⟨congrArg Prod.fst this, congrArg Prod.snd this⟩
        refine ⟨[.openFile fname
            (O_WRONLY ||| O_CREAT |||
              (if append then O_APPEND else O_TRUNC)) (0o644),
            .dupStdout, .redirectStdout],
          Ev.launch (curArgsOf (a :: as)
            (.applied ((a :: as).take (j + 1)))), ?_, ?_, ?_, ?_⟩
        · rw [← hevs]; simp [postEvents]
        · simp
        · simp
        · exact Or.inr ⟨_, rfl⟩

/-- C2 witness: the amended statement instantiated at
`echo hi > out` (builtin path, open succeeds). -/
theorem c2_restore_exactly_once_witness :
    ∃ pre handler,
      [Ev.openFile "out" 577 420, Ev.dupStdout, Ev.redirectStdout,
       Ev.runBuiltin "echo" ["echo", "hi"], Ev.restoreStdout]
        = pre ++ [handler, Ev.restoreStdout]
      ∧ Ev.restoreStdout ∉ pre ∧ handler ≠ Ev.restoreStdout
      ∧ ((∃ n bargs, handler = Ev.runBuiltin n bargs)
         ∨ (∃ largs, handler = Ev.launch largs)) :=
  c2_restore_exactly_once env0 ["echo", "hi", ">", "out"] 2 false "out" 1
    [Ev.openFile "out" 577 420, Ev.dupStdout, Ev.redirectStdout,
     Ev.runBuiltin "echo" ["echo", "hi"], Ev.restoreStdout]
    (by decide) (by decide) (by decide) (by decide) rfl (by decide)

/-- C4 counterexample: on the non-empty vector `[">"]` (whose element 0
is not `"exit"`) the executor does not return 1: `lsh_redirect` writes
NULL into `args[0]`, the builtin scan calls `strcmp(NULL, "cd")`, and
the process crashes instead of returning. -/
theorem c4_counterexample_leading_operator_crashes :
    lsh_execute env0 [">"] = none := by decide

/-- C4 amended: for every non-empty Argument Vector whose first token is
not a redirection operator, whenever `lsh_execute` returns, it returns 0
("stop") if and only if element 0 is `"exit"`, and 1 ("continue") for
every other command name and outcome. -/
theorem c4_execute_status (env : Env) (args : List String) (r : Int)
    (evs : List Ev) (h0 : args ≠ [])
    (h1 : args.head? ≠ some ">") (h2 : args.head? ≠ some ">>")
    (h6 : lsh_execute env args = some (r, evs)) :
    r = if args.head? = some "exit" then 0 else 1 := by
  cases args with
  | nil => exact absurd rfl h0
  | cons a as =>
    have ha1 : a ≠ ">" := fun hc => h1 (by rw [hc]; rfl)
    have ha2 : a ≠ ">>" := fun hc => h2 (by rw [hc]; rfl)
    rcases hred : lsh_redirect (a :: as) env.openOk with ⟨rres, ev⟩
    have hhead := curArgs_head a as env.openOk rres ev ha1 ha2 hred
    simp only [lsh_execute, if_neg (List.cons_ne_nil a as), hred,
      hhead] at h6
    simp only [List.head?_cons, Option.some.injEq]
    by_cases hb : a ∈ builtin_str
    · rw [if_pos hb] at h6
      have hr : dispatchBuiltin env a (curArgsOf (a :: as) rres) = r :=
        congrArg Prod.fst ((Option.some.injEq _ _).mp h6)
      rw [← hr, dispatchBuiltin_status]
    · rw [if_neg hb] at h6
      have hne : a ≠ "exit" := fun hc => hb (by rw [hc]; decide)
      rw [if_neg hne]
      cases hl : lsh_launch env.forkOk env.waitStatuses with
      | none => rw [hl] at h6; exact absurd h6 (by simp)
      | some r0 =>
        rw [hl] at h6
        have hr : r0 = r :=
          congrArg Prod.fst ((Option.some.injEq _ _).mp h6)
        rw [← hr]
        exact lsh_launch_result env.forkOk env.waitStatuses r0 hl

/-- C4 witness: the amended statement instantiated at the vector
`["exit"]`, on which the executor returns 0. -/
theorem c4_execute_status_witness :
    (0 : Int) =
      if (["exit"] : List String).head? = some "exit" then 0 else 1 :=
  c4_execute_status env0 ["exit"] 0 [Ev.runBuiltin "exit" ["exit"]]
    (by decide) (by decide) (by decide) (by decide)

/-- C10: the output of `lsh_echo` is claimed to be a function of the
argument vector alone, in particular when the first argument begins with
neither quote character. It is not: `check` is then read uninitialized,
and two runs of `echo a b c` whose indeterminate byte happens to be
`'b'` respectively `'x'` write different bytes (`"a c \n"` versus
`"a b c \n"`). -/
theorem c10_echo_depends_on_indeterminate_byte :
    (lsh_echo ["echo", "a", "b", "c"] 'b').1
      ≠ (lsh_echo ["echo", "a", "b", "c"] 'x').1 := by decide

end CShell
